import Mathlib

/-!
Verification of the retryable-ticket lifecycle precompiles
(`ArbRetryableTx`) and the L1 fee-aggregation registry surface
(`ArbAggregator`) from `src/precompiles/ArbAggregator.go`.

The precompile bodies are translated directly from the Go source.
The external collaborators they call (the retryable ticket store, the
gas burner, the word-count helper, the redeem-transaction-id derivation
and the lifetime constant) live outside the given source excerpt and are
modelled from the specification, each marked `Modelled from the spec:`
in its doc comment.
-/

/-- Account addresses, modelled as natural numbers. -/
abbrev Addr := Nat

/-- 32-byte ticket identifiers, modelled as natural numbers. -/
abbrev TicketId := Nat

/-- 32-byte hashes (redeem transaction ids), modelled as natural numbers. -/
abbrev Hash := Nat

/-- `params.SloadGas` from go-ethereum (external constant). -/
def SloadGas : Nat := 50

/-- `params.SstoreSetGas` from go-ethereum (external constant). -/
def SstoreSetGas : Nat := 20000

/-- Modelled from the spec: the fixed configured lifetime window
(`retryables.RetryableLifetimeSeconds`, not in the source excerpt),
a fixed number of seconds — one week. -/
def RetryableLifetimeSeconds : Nat := 7 * 24 * 60 * 60

/-- Modelled from the spec: `util.WordsForBytes` (not in the source
excerpt), the word count `words(n) = ceil(n / 32)`. -/
def WordsForBytes (nbytes : Nat) : Nat := (nbytes + 31) / 32

/-- Modelled from the spec: `retryables.TxIdForRedeemAttempt` (not in
the source excerpt), a pure, collision-resistant hash over the
concatenation of the 32-byte ticket id and the 8-byte sequence number;
idealized here as the (injective) concatenation itself. -/
def TxIdForRedeemAttempt (ticketId : TicketId) (seq : Nat) : Hash :=
  ticketId * 2 ^ 64 + seq

/-- A retryable ticket record as held by the ticket store
(spec §3: the core only reads/mutates it via the store). -/
structure Retryable where
  beneficiary : Addr
  timeout : Nat
  numTries : Nat
  sizeBytes : Nat
deriving DecidableEq, Repr

/-- Error kinds surfaced by the precompiles (spec §7). `notFound` is the
single uniform not-found condition (`NotFoundError` in the source). -/
inductive Err where
  | notFound
  | unauthorized (msg : String)
  | outOfGas
  | storeFailure (msg : String)
deriving DecidableEq, Repr

/-- The retryable ticket store state. `deleteErr` injects the
store-failure error kind of spec §7 into the delete operation
(`none` = healthy store). -/
structure RetryableState where
  tickets : List (TicketId × Retryable)
  deleteErr : Option String
deriving DecidableEq, Repr

/-- Look a ticket up by id in the store's association list. -/
def lookupTicket : List (TicketId × Retryable) → TicketId → Option Retryable
  | [], _ => none
  | (k, v) :: rest, id => if k = id then some v else lookupTicket rest id

/-- Replace the record stored under `id` (no-op when absent). -/
def setTicket : List (TicketId × Retryable) → TicketId → Retryable →
    List (TicketId × Retryable)
  | [], _, _ => []
  | (k, v) :: rest, id, t =>
      if k = id then (k, t) :: rest else (k, v) :: setTicket rest id t

/-- Remove the record stored under `id`. -/
def removeTicket (l : List (TicketId × Retryable)) (id : TicketId) :
    List (TicketId × Retryable) :=
  l.filter (fun p => p.1 != id)

/-- Modelled from the spec: the store's `open(ticketId, now)` —
returns the ticket if it exists and has not expired relative to `now`
(a ticket is considered absent once the current time passes its
`timeout`); returns absent, not an error, otherwise. -/
def OpenRetryable (st : RetryableState) (id : TicketId) (now : Nat) :
    Option Retryable :=
  match lookupTicket st.tickets id with
  | some t => if now ≤ t.timeout then some t else none
  | none => none

/-- Modelled from the spec: the store's `delete(ticketId)` — removes the
ticket unconditionally and reports whether it existed; the store may
report a store-failure error (spec §7), injected via `deleteErr`, in
which case nothing is removed. -/
def DeleteRetryable (st : RetryableState) (id : TicketId) :
    (Bool × Option Err) × RetryableState :=
  match st.deleteErr with
  | some msg => ((false, some (.storeFailure msg)), st)
  | none =>
      (((lookupTicket st.tickets id).isSome, none),
        { st with tickets := removeTicket st.tickets id })

/-- Modelled from the spec: the store's `sizeBytes(ticketId, now)` —
returns 0 if the ticket is absent or expired, else the stored payload
size. -/
def RetryableSizeBytes (st : RetryableState) (id : TicketId) (now : Nat) :
    Nat :=
  match OpenRetryable st id now with
  | some t => t.sizeBytes
  | none => 0

/-- Modelled from the spec: the store's `renew(ticketId, now, newTimeout,
lifetimeWindow)` — sets `timeout = newTimeout`; fails if absent. -/
def RetryableStateKeepalive (st : RetryableState) (id : TicketId)
    (now newTimeout : Nat) : Except Err RetryableState :=
  match OpenRetryable st id now with
  | none => .error .notFound
  | some t =>
      .ok { st with tickets := setTicket st.tickets id { t with timeout := newTimeout } }

/-- Events emitted by the retryable precompile (spec §6). -/
inductive Event where
  | canceled (ticketId : TicketId)
  | lifetimeExtended (ticketId : TicketId) (newTimeout : Int)
  | redeemScheduled (ticketId : TicketId) (redeemTxId : Hash)
      (sequenceNum : Nat) (donatedGas : Nat) (caller : Addr)
deriving DecidableEq, Repr

/-- The per-call machine state seen by a precompile: the caller, the
remaining gas of the calling frame, the current block time, the ticket
store and the event log accumulated so far. -/
structure Machine where
  caller : Addr
  gasLeft : Nat
  now : Nat
  retryables : RetryableState
  events : List Event
deriving DecidableEq, Repr

/-- Modelled from the spec: `c.burn(amount)` — deterministic metered gas
burn; if the burn cannot be satisfied by the remaining gas budget the
operation fails immediately with an out-of-gas condition and no state is
mutated. -/
def burn (m : Machine) (amount : Nat) : Option Machine :=
  if amount ≤ m.gasLeft then some { m with gasLeft := m.gasLeft - amount }
  else none

/-- The event gas-cost oracles handed to the precompile by its
environment (the `...GasCost` function fields of `ArbRetryableTx`,
assigned outside the source excerpt). Theorems quantify over them. -/
structure EventCosts where
  lifetimeExtendedGasCost : TicketId → Int → Nat
  redeemScheduledGasCost : TicketId → Hash → Nat → Nat → Addr → Nat

namespace ArbRetryableTx

/-- `ArbRetryableTx.Cancel` translated from the source: open the ticket
(not-found if absent), check the caller is the beneficiary, delete with
no refund, emit `Canceled`, and return the delete's error. -/
def Cancel (m : Machine) (ticketId : TicketId) : Except Err Unit × Machine :=
  match OpenRetryable m.retryables ticketId m.now with
  | none => (.error .notFound, m)
  | some retryable =>
    if m.caller ≠ retryable.beneficiary then
      (.error (.unauthorized "only the beneficiary may cancel a retryable"), m)
    else
      -- no refunds are given for deleting retryables because they use rented space
      let ((_, derr), rs) := DeleteRetryable m.retryables ticketId
      let m' := { m with
        retryables := rs
        events := m.events ++ [.canceled ticketId] }
      match derr with
      | some e => (.error e, m')
      | none => (.ok (), m')

/-- `ArbRetryableTx.GetBeneficiary` translated from the source: burn
`2×SLOAD`, open the ticket, return its beneficiary or not-found. -/
def GetBeneficiary (m : Machine) (ticketId : TicketId) :
    Except Err Addr × Machine :=
  match burn m (2 * SloadGas) with
  | none => (.error .outOfGas, m)
  | some m =>
    match OpenRetryable m.retryables ticketId m.now with
    | none => (.error .notFound, m)
    | some retryable => (.ok retryable.beneficiary, m)

/-- `ArbRetryableTx.GetLifetime` translated from the source: returns the
fixed lifetime constant, burning nothing. -/
def GetLifetime : Int := (RetryableLifetimeSeconds : Int)

/-- `ArbRetryableTx.GetTimeout` translated from the source: open the
ticket, return its timeout or not-found. -/
def GetTimeout (m : Machine) (ticketId : TicketId) :
    Except Err Int × Machine :=
  match OpenRetryable m.retryables ticketId m.now with
  | none => (.error .notFound, m)
  | some retryable => (.ok (retryable.timeout : Int), m)

/-- `ArbRetryableTx.Keepalive` translated from the source: burn the
fixed cost plus the lifetime-extended event cost, read the payload size
(not-found if zero), burn the size-proportional update cost, renew the
ticket to `now + RetryableLifetimeSeconds`, re-open it to read back the
authoritative new timeout, emit `LifetimeExtended`, and return the new
timeout. -/
def Keepalive (costs : EventCosts) (m : Machine) (ticketId : TicketId) :
    Except Err Int × Machine :=
  -- charge for the check & event
  let eventCost := costs.lifetimeExtendedGasCost ticketId 0
  match burn m (6 * SloadGas + 2 * SstoreSetGas + eventCost) with
  | none => (.error .outOfGas, m)
  | some m =>
    -- charge for the expiry update
    let nbytes := RetryableSizeBytes m.retryables ticketId m.now
    if nbytes = 0 then (.error .notFound, m)
    else
      let updateCost := WordsForBytes nbytes * SstoreSetGas / 100
      match burn m updateCost with
      | none => (.error .outOfGas, m)
      | some m =>
        let currentTime := m.now
        let window := currentTime + RetryableLifetimeSeconds
        match RetryableStateKeepalive m.retryables ticketId currentTime window with
        | .error e => (.error e, m)
        | .ok rs =>
          let m := { m with retryables := rs }
          match OpenRetryable m.retryables ticketId currentTime with
          | none => (.error .notFound, m)  -- unreachable: the renew just set a fresh window
          | some retryable =>
            let newTimeout := retryable.timeout
            let m := { m with events := m.events ++ [.lifetimeExtended ticketId (newTimeout : Int)] }
            ((.ok (newTimeout : Int)), m)

/-- `ArbRetryableTx.Redeem` translated from the source: burn the fixed
cost plus the redeem-scheduled event cost (evaluated at placeholder
arguments), burn the size-proportional cost, open the ticket (not-found
if absent), increment `numTries`, derive the redeem transaction id, emit
`RedeemScheduled` carrying the remaining gas, then donate all remaining
gas by burning it. -/
def Redeem (costs : EventCosts) (m : Machine) (ticketId : TicketId) :
    Except Err Hash × Machine :=
  let eventCost := costs.redeemScheduledGasCost ticketId ticketId 0 0 m.caller
  match burn m (5 * SloadGas + SstoreSetGas + eventCost) with
  | none => (.error .outOfGas, m)
  | some m =>
    let byteCount := RetryableSizeBytes m.retryables ticketId m.now
    let writeBytes := WordsForBytes byteCount
    match burn m (SloadGas * writeBytes) with
    | none => (.error .outOfGas, m)
    | some m =>
      match OpenRetryable m.retryables ticketId m.now with
      | none => (.error .notFound, m)
      | some retryable =>
        -- IncrementNumTries: modelled from the spec, returns the new count
        let sequenceNum := retryable.numTries + 1
        let rs := { m.retryables with
          tickets := setTicket m.retryables.tickets ticketId { retryable with numTries := sequenceNum } }
        let redeemTxId := TxIdForRedeemAttempt ticketId sequenceNum
        let m := { m with
          retryables := rs
          events := m.events ++ [.redeemScheduled ticketId redeemTxId sequenceNum m.gasLeft m.caller] }
        -- now donate all of the remaining gas to the retry
        match burn m m.gasLeft with
        | none => (.error .outOfGas, m)  -- unreachable: gasLeft ≤ gasLeft
        | some m => (.ok redeemTxId, m)

end ArbRetryableTx

/-- The L1 pricing registry state consumed by the `ArbAggregator`
surface; the fee-collector mapping is the part the verified claims
touch. Modelled from the spec: simple keyed accessors. -/
structure L1PricingState where
  aggregatorFeeCollector : Addr → Addr

/-- Modelled from the spec: the registry read
`AggregatorFeeCollector(aggregator)`, a pure lookup. -/
def L1PricingState.AggregatorFeeCollector (st : L1PricingState)
    (aggregator : Addr) : Addr :=
  st.aggregatorFeeCollector aggregator

/-- Modelled from the spec: the registry write
`SetAggregatorFeeCollector(aggregator, newCollector)`. -/
def L1PricingState.SetAggregatorFeeCollector (st : L1PricingState)
    (aggregator newFeeCollector : Addr) : L1PricingState :=
  { st with aggregatorFeeCollector := fun a =>
      if a = aggregator then newFeeCollector else st.aggregatorFeeCollector a }

namespace ArbAggregator

/-- `ArbAggregator.GetFeeCollector` translated from the source. -/
def GetFeeCollector (st : L1PricingState) (aggregator : Addr) : Addr :=
  st.AggregatorFeeCollector aggregator

/-- `ArbAggregator.SetFeeCollector` translated from the source: read the
current collector, reject any caller that is neither the aggregator nor
that collector, then write the new collector. -/
def SetFeeCollector (caller : Addr) (st : L1PricingState)
    (aggregator newFeeCollector : Addr) : Except Err Unit × L1PricingState :=
  let collector := st.AggregatorFeeCollector aggregator
  if caller ≠ aggregator ∧ caller ≠ collector then
    -- only the aggregator and its current fee collector can change the aggregator's fee collector
    (.error (.unauthorized "non-authorized c.caller in ArbAggregator.SetFeeCollector"), st)
  else
    (.ok (), st.SetAggregatorFeeCollector aggregator newFeeCollector)

end ArbAggregator

/-! ### Concrete fixtures used by the witness theorems -/

/-- Concrete event-cost oracle for witnesses. -/
def wCosts : EventCosts := ⟨fun _ _ => 7, fun _ _ _ _ _ => 11⟩

/-- Concrete ticket: beneficiary 5, timeout 1000, no tries, 100 bytes. -/
def wTicket : Retryable := ⟨5, 1000, 0, 100⟩

/-- Concrete machine: caller 9, plenty of gas, time 900, one ticket. -/
def wM : Machine := ⟨9, 100000, 900, ⟨[(1, wTicket)], none⟩, []⟩

/-- The machine of a second redeem transaction: fresh gas and empty
event log, sharing the ticket store left by a first redeem on `wM`. -/
def wM2 : Machine :=
  { caller := 4, gasLeft := 90000, now := 901,
    retryables := (ArbRetryableTx.Redeem wCosts wM 1).2.retryables, events := [] }

/-- Concrete machine whose store reports a delete failure, with the
beneficiary itself calling. -/
def wMDel : Machine := ⟨5, 100000, 900, ⟨[(1, wTicket)], some "store corruption"⟩, []⟩

/-- Concrete machine with an absent ticket id (store empty). -/
def wMAbs : Machine := ⟨9, 100000, 900, ⟨[], none⟩, []⟩

/-- Concrete registry state: aggregator 2's collector is 3. -/
def wL1 : L1PricingState := ⟨fun a => if a = 2 then 3 else 0⟩

/-! ### Helper lemmas about the store model -/

theorem lookupTicket_setTicket (l : List (TicketId × Retryable)) (id : TicketId) (t : Retryable) :
    lookupTicket (setTicket l id t) id = (lookupTicket l id).map (fun _ => t) := by
  induction l with
  | nil => simp [lookupTicket, setTicket]
  | cons p rest ih =>
    obtain ⟨k, v⟩ := p
    by_cases hk : k = id
    · simp [lookupTicket, setTicket, hk]
    · simp [lookupTicket, setTicket, hk, ih]

theorem OpenRetryable_eq_some {st : RetryableState} {id : TicketId} {now : Nat} {t : Retryable} :
    OpenRetryable st id now = some t ↔
      lookupTicket st.tickets id = some t ∧ now ≤ t.timeout := by
  constructor
  · intro h
    unfold OpenRetryable at h
    split at h
    next t0 hl =>
      split at h
      next ht => injection h with h; subst h; exact ⟨hl, ht⟩
      next ht => exact absurd h (by simp)
    next hl => exact absurd h (by simp)
  · rintro ⟨hl, ht⟩
    simp [OpenRetryable, hl, ht]

theorem burn_eq_some {m m' : Machine} {a : Nat} :
    burn m a = some m' ↔ a ≤ m.gasLeft ∧ m' = { m with gasLeft := m.gasLeft - a } := by
  unfold burn
  by_cases h : a ≤ m.gasLeft
  · simp only [h, if_true, Option.some_inj, true_and]
    exact ⟨fun e => e.symm, fun e => e.symm⟩
  · simp [h]

theorem RetryableStateKeepalive_ok {st : RetryableState} {id : TicketId} {now w : Nat}
    {rs : RetryableState} (h : RetryableStateKeepalive st id now w = .ok rs) :
    ∃ t, lookupTicket st.tickets id = some t ∧ now ≤ t.timeout ∧
      rs = { st with tickets := setTicket st.tickets id { t with timeout := w } } := by
  unfold RetryableStateKeepalive at h
  cases ho : OpenRetryable st id now with
  | none => rw [ho] at h; exact absurd h (by simp)
  | some t =>
    rw [ho] at h
    obtain ⟨hl, ht⟩ := OpenRetryable_eq_some.mp ho
    exact ⟨t, hl, ht, by injection h with h; exact h.symm⟩

/-- Success inversion for `Keepalive`: a successful call implies the
ticket was present, unexpired and non-empty, both burns were payable,
the returned value is `now + RetryableLifetimeSeconds`, and the final
machine is the input with the two burns applied, the ticket's timeout
reset and one lifetime-extended event appended. -/
theorem Keepalive_ok {costs : EventCosts} {m : Machine} {id : TicketId} {v : Int} {m' : Machine}
    (h : ArbRetryableTx.Keepalive costs m id = (.ok v, m')) :
    ∃ t, lookupTicket m.retryables.tickets id = some t ∧ m.now ≤ t.timeout ∧
      t.sizeBytes ≠ 0 ∧
      (6 * SloadGas + 2 * SstoreSetGas + costs.lifetimeExtendedGasCost id 0)
        + WordsForBytes t.sizeBytes * SstoreSetGas / 100 ≤ m.gasLeft ∧
      v = ((m.now + RetryableLifetimeSeconds : Nat) : Int) ∧
      m' = { m with
        gasLeft := m.gasLeft - (6 * SloadGas + 2 * SstoreSetGas + costs.lifetimeExtendedGasCost id 0)
          - WordsForBytes t.sizeBytes * SstoreSetGas / 100
        retryables := { m.retryables with
          tickets := setTicket m.retryables.tickets id
            { t with timeout := m.now + RetryableLifetimeSeconds } }
        events := m.events ++ [.lifetimeExtended id ((m.now + RetryableLifetimeSeconds : Nat) : Int)] } := by
  simp only [ArbRetryableTx.Keepalive] at h
  split at h
  · exact absurd h (by simp)
  next m1 hb1 =>
    split at h
    · exact absurd h (by simp)
    next hnz =>
      split at h
      · exact absurd h (by simp)
      next m2 hb2 =>
        split at h
        · exact absurd h (by simp)
        next rs hks =>
          split at h
          · exact absurd h (by simp)
          next r hor =>
            obtain ⟨hb1le, rfl⟩ := burn_eq_some.mp hb1
            obtain ⟨hb2le, rfl⟩ := burn_eq_some.mp hb2
            obtain ⟨t, hl, htime, rfl⟩ := RetryableStateKeepalive_ok hks
            simp only at hl hor hnz hb2le ⊢
            have hsize : RetryableSizeBytes m.retryables id m.now = t.sizeBytes := by
              unfold RetryableSizeBytes
              rw [OpenRetryable_eq_some.mpr ⟨hl, htime⟩]
            rw [hsize] at hnz hb2le h
            rw [OpenRetryable_eq_some] at hor
            obtain ⟨hlr, _⟩ := hor
            simp only [lookupTicket_setTicket, hl, Option.map_some] at hlr
            injection hlr with hlr
            subst hlr
            injection h with h1 h2
            injection h1 with h1
            refine ⟨t, hl, htime, hnz, by omega, h1.symm, ?_⟩
            rw [← h2]

/-- Success inversion for `Redeem`: a successful call implies the ticket
was present and unexpired, both metered burns were payable, the returned
id is `TxIdForRedeemAttempt ticketId (numTries + 1)`, and the final
machine is the input with all gas gone, `numTries` incremented and one
redeem-scheduled event appended carrying the gas remaining after the two
metered burns. -/
theorem Redeem_ok {costs : EventCosts} {m : Machine} {id : TicketId} {v : Hash} {m' : Machine}
    (h : ArbRetryableTx.Redeem costs m id = (.ok v, m')) :
    ∃ t, lookupTicket m.retryables.tickets id = some t ∧ m.now ≤ t.timeout ∧
      (5 * SloadGas + SstoreSetGas + costs.redeemScheduledGasCost id id 0 0 m.caller)
        + SloadGas * WordsForBytes t.sizeBytes ≤ m.gasLeft ∧
      v = TxIdForRedeemAttempt id (t.numTries + 1) ∧
      m' = { m with
        gasLeft := 0
        retryables := { m.retryables with
          tickets := setTicket m.retryables.tickets id { t with numTries := t.numTries + 1 } }
        events := m.events ++ [.redeemScheduled id (TxIdForRedeemAttempt id (t.numTries + 1))
          (t.numTries + 1)
          (m.gasLeft
            - (5 * SloadGas + SstoreSetGas + costs.redeemScheduledGasCost id id 0 0 m.caller)
            - SloadGas * WordsForBytes t.sizeBytes) m.caller] } := by
  simp only [ArbRetryableTx.Redeem] at h
  split at h
  · exact absurd h (by simp)
  next m1 hb1 =>
    split at h
    · exact absurd h (by simp)
    next m2 hb2 =>
      split at h
      · exact absurd h (by simp)
      next t hor =>
        split at h
        next hbf => exact absurd hbf (by simp [burn])
        next m3 hbf =>
          obtain ⟨hb1le, rfl⟩ := burn_eq_some.mp hb1
          obtain ⟨hb2le, rfl⟩ := burn_eq_some.mp hb2
          obtain ⟨hbfle, rfl⟩ := burn_eq_some.mp hbf
          simp only at hor hb2le h ⊢
          rw [OpenRetryable_eq_some] at hor
          obtain ⟨hl, htime⟩ := hor
          have hsize : RetryableSizeBytes m.retryables id m.now = t.sizeBytes := by
            unfold RetryableSizeBytes
            rw [OpenRetryable_eq_some.mpr ⟨hl, htime⟩]
          rw [hsize] at hb2le h
          injection h with h1 h2
          injection h1 with h1
          refine ⟨t, hl, htime, by omega, h1.symm, ?_⟩
          rw [← h2]
          simp only [Machine.mk.injEq, Nat.sub_self]

/-! ### C1 -/

/-- C1: For every ticket present and unexpired at the current time, a
successful Keepalive(ticketId) call sets the ticket's timeout to exactly
now + fixedLifetimeWindow and returns that value, regardless of the
ticket's prior timeout (a fresh window from now, never an additive
extension of the previous timeout). -/
theorem keepalive_sets_fresh_window (costs : EventCosts) (m : Machine) (id : TicketId)
    (t : Retryable) (v : Int) (m' : Machine)
    (hpresent : lookupTicket m.retryables.tickets id = some t)
    (hunexpired : m.now ≤ t.timeout)
    (hok : ArbRetryableTx.Keepalive costs m id = (.ok v, m')) :
    v = ((m.now + RetryableLifetimeSeconds : Nat) : Int) ∧
      lookupTicket m'.retryables.tickets id =
        some { t with timeout := m.now + RetryableLifetimeSeconds } := by
  obtain ⟨t', hl', _, _, _, hv, rfl⟩ := Keepalive_ok hok
  rw [hpresent] at hl'
  injection hl' with hl'
  subst hl'
  exact ⟨hv, by simp [lookupTicket_setTicket, hpresent]⟩

/-- Witness for C1 at a concrete ticket with prior timeout 1000,
renewed at time 900. -/
theorem keepalive_sets_fresh_window_witness :
    ((900 + RetryableLifetimeSeconds : Nat) : Int) = ((wM.now + RetryableLifetimeSeconds : Nat) : Int) ∧
      lookupTicket (ArbRetryableTx.Keepalive wCosts wM 1).2.retryables.tickets 1 =
        some { wTicket with timeout := wM.now + RetryableLifetimeSeconds } :=
  keepalive_sets_fresh_window wCosts wM 1 wTicket
    ((900 + RetryableLifetimeSeconds : Nat) : Int) (ArbRetryableTx.Keepalive wCosts wM 1).2
    (of_decide_eq_true rfl) (of_decide_eq_true rfl) (by rfl)

/-! ### C7 -/

/-- C7: For every (successful) Keepalive(ticketId) call, the gas burned
is exactly 6×SLOAD + 2×SSTORE-set + the lifetime-extended event cost,
burned before any store mutation, plus a second burn of exactly
words(sizeBytes) × SSTORE-set / 100 charged after the ticket's payload
size is known, where words(n) = ceil(n / 32). -/
theorem keepalive_gas_two_phase (costs : EventCosts) (m : Machine) (id : TicketId)
    (v : Int) (m' : Machine)
    (hok : ArbRetryableTx.Keepalive costs m id = (.ok v, m')) :
    m.gasLeft - m'.gasLeft =
      (6 * SloadGas + 2 * SstoreSetGas + costs.lifetimeExtendedGasCost id 0)
        + WordsForBytes (RetryableSizeBytes m.retryables id m.now) * SstoreSetGas / 100 ∧
    RetryableSizeBytes m.retryables id m.now ≤
      32 * WordsForBytes (RetryableSizeBytes m.retryables id m.now) ∧
    32 * WordsForBytes (RetryableSizeBytes m.retryables id m.now) <
      RetryableSizeBytes m.retryables id m.now + 32 := by
  obtain ⟨t, hl, htime, _, hg, _, rfl⟩ := Keepalive_ok hok
  have hsize : RetryableSizeBytes m.retryables id m.now = t.sizeBytes := by
    unfold RetryableSizeBytes
    rw [OpenRetryable_eq_some.mpr ⟨hl, htime⟩]
  rw [hsize]
  refine ⟨by simp only; omega, ?_, ?_⟩ <;> (unfold WordsForBytes; omega)

/-- Witness for C7 at a concrete 100-byte ticket. -/
theorem keepalive_gas_two_phase_witness :
    wM.gasLeft - (ArbRetryableTx.Keepalive wCosts wM 1).2.gasLeft =
      (6 * SloadGas + 2 * SstoreSetGas + wCosts.lifetimeExtendedGasCost 1 0)
        + WordsForBytes (RetryableSizeBytes wM.retryables 1 wM.now) * SstoreSetGas / 100 ∧
    RetryableSizeBytes wM.retryables 1 wM.now ≤
      32 * WordsForBytes (RetryableSizeBytes wM.retryables 1 wM.now) ∧
    32 * WordsForBytes (RetryableSizeBytes wM.retryables 1 wM.now) <
      RetryableSizeBytes wM.retryables 1 wM.now + 32 :=
  keepalive_gas_two_phase wCosts wM 1
    ((900 + RetryableLifetimeSeconds : Nat) : Int) (ArbRetryableTx.Keepalive wCosts wM 1).2
    (by rfl)

/-! ### C2 -/

/-- C2: For every successful Redeem(ticketId) call, the total gas burned
from the caller equals fixedCost (5×SLOAD + SSTORE-set) + the
redeem-scheduled event cost + words(sizeBytes)×SLOAD + the caller's
remaining gas at the final burn, and the gas amount carried in the
emitted redeem-scheduled event equals exactly the amount burned by that
final burn (gas forwarded downstream equals gas burned here). -/
theorem redeem_gas_roundtrip (costs : EventCosts) (m : Machine) (id : TicketId)
    (v : Hash) (m' : Machine)
    (hok : ArbRetryableTx.Redeem costs m id = (.ok v, m')) :
    ∃ seq g,
      m'.events = m.events ++ [.redeemScheduled id v seq g m.caller] ∧
      m'.gasLeft = 0 ∧
      m.gasLeft - m'.gasLeft =
        (5 * SloadGas + SstoreSetGas + costs.redeemScheduledGasCost id id 0 0 m.caller)
          + SloadGas * WordsForBytes (RetryableSizeBytes m.retryables id m.now) + g := by
  obtain ⟨t, hl, htime, hg, hv, rfl⟩ := Redeem_ok hok
  have hsize : RetryableSizeBytes m.retryables id m.now = t.sizeBytes := by
    unfold RetryableSizeBytes
    rw [OpenRetryable_eq_some.mpr ⟨hl, htime⟩]
  subst hv
  refine ⟨t.numTries + 1,
    m.gasLeft
      - (5 * SloadGas + SstoreSetGas + costs.redeemScheduledGasCost id id 0 0 m.caller)
      - SloadGas * WordsForBytes t.sizeBytes, rfl, rfl, ?_⟩
  rw [hsize]
  simp only
  omega

/-- Witness for C2 at a concrete ticket and gas budget. -/
theorem redeem_gas_roundtrip_witness :
    ∃ seq g,
      (ArbRetryableTx.Redeem wCosts wM 1).2.events =
        wM.events ++ [.redeemScheduled 1 (TxIdForRedeemAttempt 1 1) seq g wM.caller] ∧
      (ArbRetryableTx.Redeem wCosts wM 1).2.gasLeft = 0 ∧
      wM.gasLeft - (ArbRetryableTx.Redeem wCosts wM 1).2.gasLeft =
        (5 * SloadGas + SstoreSetGas + wCosts.redeemScheduledGasCost 1 1 0 0 wM.caller)
          + SloadGas * WordsForBytes (RetryableSizeBytes wM.retryables 1 wM.now) + g :=
  redeem_gas_roundtrip wCosts wM 1 (TxIdForRedeemAttempt 1 1)
    (ArbRetryableTx.Redeem wCosts wM 1).2 (by rfl)

/-! ### C5 -/

/-- C5: For every ticket present and unexpired at the current time, a
successful Redeem(ticketId) leaves the ticket's timeout and beneficiary
unchanged, increments numTries exactly once, and emits exactly one
redeem-scheduled event whose sequenceNum equals the ticket's numTries
before the call plus one. -/
theorem redeem_frame (costs : EventCosts) (m : Machine) (id : TicketId)
    (t : Retryable) (v : Hash) (m' : Machine)
    (hpresent : lookupTicket m.retryables.tickets id = some t)
    (hunexpired : m.now ≤ t.timeout)
    (hok : ArbRetryableTx.Redeem costs m id = (.ok v, m')) :
    (∃ t', lookupTicket m'.retryables.tickets id = some t' ∧
      t'.timeout = t.timeout ∧ t'.beneficiary = t.beneficiary ∧
      t'.numTries = t.numTries + 1) ∧
    ∃ g, m'.events = m.events ++ [.redeemScheduled id v (t.numTries + 1) g m.caller] := by
  obtain ⟨t1, hl1, _, _, hv, rfl⟩ := Redeem_ok hok
  rw [hpresent] at hl1
  injection hl1 with hl1
  subst hl1
  constructor
  · exact ⟨{ t with numTries := t.numTries + 1 },
      by simp [lookupTicket_setTicket, hpresent], rfl, rfl, rfl⟩
  · exact ⟨_, by rw [hv]⟩

/-- Witness for C5 at a concrete ticket. -/
theorem redeem_frame_witness :
    (∃ t', lookupTicket (ArbRetryableTx.Redeem wCosts wM 1).2.retryables.tickets 1 = some t' ∧
      t'.timeout = wTicket.timeout ∧ t'.beneficiary = wTicket.beneficiary ∧
      t'.numTries = wTicket.numTries + 1) ∧
    ∃ g, (ArbRetryableTx.Redeem wCosts wM 1).2.events =
      wM.events ++ [.redeemScheduled 1 (TxIdForRedeemAttempt 1 1) (wTicket.numTries + 1) g wM.caller] :=
  redeem_frame wCosts wM 1 wTicket (TxIdForRedeemAttempt 1 1)
    (ArbRetryableTx.Redeem wCosts wM 1).2
    (of_decide_eq_true rfl) (of_decide_eq_true rfl) (by rfl)

/-! ### C6 -/

/-- C6: For every ticket with numTries = 0, two successive successful
Redeem calls (the second seeing the store the first left behind) emit
sequenceNum 1 and then sequenceNum 2, and the redeemTxId emitted by each
call is the deterministic pure function `TxIdForRedeemAttempt` of
(ticketId, sequenceNum), so the two calls emit distinct redeemTxId
values. -/
theorem redeem_twice_distinct (costs costs2 : EventCosts) (m m2 : Machine) (id : TicketId)
    (t : Retryable) (r1 r2 : Hash) (m' m'' : Machine)
    (hpresent : lookupTicket m.retryables.tickets id = some t)
    (htries : t.numTries = 0)
    (h1 : ArbRetryableTx.Redeem costs m id = (.ok r1, m'))
    (hstore : m2.retryables = m'.retryables)
    (h2 : ArbRetryableTx.Redeem costs2 m2 id = (.ok r2, m'')) :
    (∃ g1, m'.events = m.events ++ [.redeemScheduled id r1 1 g1 m.caller]) ∧
    (∃ g2, m''.events = m2.events ++ [.redeemScheduled id r2 2 g2 m2.caller]) ∧
    r1 = TxIdForRedeemAttempt id 1 ∧ r2 = TxIdForRedeemAttempt id 2 ∧ r1 ≠ r2 := by
  obtain ⟨t1, hl1, _, _, hv1, rfl⟩ := Redeem_ok h1
  rw [hpresent] at hl1
  injection hl1 with hl1
  subst hl1
  rw [htries] at hv1
  obtain ⟨t2, hl2, _, _, hv2, rfl⟩ := Redeem_ok h2
  rw [hstore] at hl2
  simp only [lookupTicket_setTicket, hpresent, Option.map_some] at hl2
  injection hl2 with hl2
  subst hl2
  have hv1' : r1 = TxIdForRedeemAttempt id 1 := by simpa using hv1
  have hv2' : r2 = TxIdForRedeemAttempt id 2 := by simpa [htries] using hv2
  refine ⟨⟨m.gasLeft - (5 * SloadGas + SstoreSetGas + costs.redeemScheduledGasCost id id 0 0 m.caller)
      - SloadGas * WordsForBytes t.sizeBytes, ?_⟩,
    ⟨m2.gasLeft - (5 * SloadGas + SstoreSetGas + costs2.redeemScheduledGasCost id id 0 0 m2.caller)
      - SloadGas * WordsForBytes t.sizeBytes, ?_⟩, hv1', hv2', ?_⟩
  · simp [htries, hv1']
  · simp [htries, hv2']
  · rw [hv1', hv2']
    unfold TxIdForRedeemAttempt
    intro hcontra
    exact absurd (Nat.add_left_cancel hcontra) (by decide)

/-- Witness for C6: the same ticket redeemed by two transactions in
sequence. -/
theorem redeem_twice_distinct_witness :
    (∃ g1, (ArbRetryableTx.Redeem wCosts wM 1).2.events =
      wM.events ++ [.redeemScheduled 1 (TxIdForRedeemAttempt 1 1) 1 g1 wM.caller]) ∧
    (∃ g2, (ArbRetryableTx.Redeem wCosts wM2 1).2.events =
      wM2.events ++ [.redeemScheduled 1 (TxIdForRedeemAttempt 1 2) 2 g2 wM2.caller]) ∧
    TxIdForRedeemAttempt 1 1 = TxIdForRedeemAttempt 1 1 ∧
    TxIdForRedeemAttempt 1 2 = TxIdForRedeemAttempt 1 2 ∧
    TxIdForRedeemAttempt 1 1 ≠ TxIdForRedeemAttempt 1 2 :=
  redeem_twice_distinct wCosts wCosts wM wM2 1 wTicket
    (TxIdForRedeemAttempt 1 1) (TxIdForRedeemAttempt 1 2)
    (ArbRetryableTx.Redeem wCosts wM 1).2 (ArbRetryableTx.Redeem wCosts wM2 1).2
    (of_decide_eq_true rfl) rfl (by rfl) rfl (by rfl)

/-! ### C10 -/

/-- C10: For every (successful) Redeem(ticketId) call, the
redeem-scheduled event cost burned up front is computed from placeholder
arguments — the ticketId standing in for the redeemTxId and zero for
both the sequence number and the gas amount — so the gas carried by the
event is the budget left after burning
`5×SLOAD + SSTORE-set + RedeemScheduledGasCost(ticketId, ticketId, 0, 0,
caller)` and the size cost, even though the event's actual redeemTxId
and sequenceNum differ from those placeholders. -/
theorem redeem_event_cost_placeholder (costs : EventCosts) (m : Machine) (id : TicketId)
    (v : Hash) (m' : Machine)
    (hok : ArbRetryableTx.Redeem costs m id = (.ok v, m')) :
    ∃ seq g,
      m'.events = m.events ++ [.redeemScheduled id v seq g m.caller] ∧
      g = m.gasLeft - ((5 * SloadGas + SstoreSetGas
            + costs.redeemScheduledGasCost id id 0 0 m.caller)
          + SloadGas * WordsForBytes (RetryableSizeBytes m.retryables id m.now)) ∧
      v ≠ id ∧ seq ≠ 0 := by
  obtain ⟨t, hl, htime, hg, hv, rfl⟩ := Redeem_ok hok
  have hsize : RetryableSizeBytes m.retryables id m.now = t.sizeBytes := by
    unfold RetryableSizeBytes
    rw [OpenRetryable_eq_some.mpr ⟨hl, htime⟩]
  subst hv
  refine ⟨t.numTries + 1, _, rfl, ?_, ?_, by omega⟩
  · rw [hsize]
    omega
  · unfold TxIdForRedeemAttempt
    intro hcontra
    have h2 : id < id * 2 ^ 64 + (t.numTries + 1) := by
      calc id ≤ id * 2 ^ 64 := le_mul_of_one_le_right (Nat.zero_le _) (by norm_num)
      _ < id * 2 ^ 64 + (t.numTries + 1) := Nat.lt_add_of_pos_right (Nat.succ_pos _)
    rw [hcontra] at h2
    exact Nat.lt_irrefl id h2

/-- Witness for C10 at a concrete ticket and cost oracle. -/
theorem redeem_event_cost_placeholder_witness :
    ∃ seq g,
      (ArbRetryableTx.Redeem wCosts wM 1).2.events =
        wM.events ++ [.redeemScheduled 1 (TxIdForRedeemAttempt 1 1) seq g wM.caller] ∧
      g = wM.gasLeft - ((5 * SloadGas + SstoreSetGas
            + wCosts.redeemScheduledGasCost 1 1 0 0 wM.caller)
          + SloadGas * WordsForBytes (RetryableSizeBytes wM.retryables 1 wM.now)) ∧
      TxIdForRedeemAttempt 1 1 ≠ 1 ∧ seq ≠ 0 :=
  redeem_event_cost_placeholder wCosts wM 1 (TxIdForRedeemAttempt 1 1)
    (ArbRetryableTx.Redeem wCosts wM 1).2 (by rfl)

/-! ### C3 -/

/-- C3: For every ticket present and unexpired at the current time, a
Cancel(ticketId) call whose caller differs from the ticket's beneficiary
returns an authorization error, and the ticket remains present and
unchanged (no deletion, no event emitted): the entire machine, store and
event log included, is returned untouched. -/
theorem cancel_unauthorized (m : Machine) (id : TicketId) (t : Retryable)
    (hopen : OpenRetryable m.retryables id m.now = some t)
    (hcaller : m.caller ≠ t.beneficiary) :
    ArbRetryableTx.Cancel m id =
      (.error (.unauthorized "only the beneficiary may cancel a retryable"), m) := by
  simp [ArbRetryableTx.Cancel, hopen, hcaller]

/-- Witness for C3: caller 9 is not the beneficiary 5. -/
theorem cancel_unauthorized_witness :
    ArbRetryableTx.Cancel wM 1 =
      (.error (.unauthorized "only the beneficiary may cancel a retryable"), wM) :=
  cancel_unauthorized wM 1 wTicket (of_decide_eq_true rfl) (of_decide_eq_true rfl)

/-! ### C9 -/

/-- C9: For every Cancel(ticketId) call in which the ticket is found and
the caller equals the beneficiary, the canceled event is emitted
unconditionally after the store delete is attempted, even when the
delete returns an error: the event emission is not gated on the delete
succeeding, and the delete's error is what the call returns. -/
theorem cancel_emits_even_on_delete_error (m : Machine) (id : TicketId) (t : Retryable)
    (hopen : OpenRetryable m.retryables id m.now = some t)
    (hben : m.caller = t.beneficiary) :
    (ArbRetryableTx.Cancel m id).2.events = m.events ++ [.canceled id] ∧
      (ArbRetryableTx.Cancel m id).1 =
        (match m.retryables.deleteErr with
         | some msg => .error (.storeFailure msg)
         | none => .ok ()) := by
  cases hd : m.retryables.deleteErr with
  | some msg =>
    simp [ArbRetryableTx.Cancel, hopen, hben, DeleteRetryable, hd]
  | none =>
    simp [ArbRetryableTx.Cancel, hopen, hben, DeleteRetryable, hd]

/-- Witness for C9: a store whose delete reports corruption still sees
the canceled event emitted and the store error returned. -/
theorem cancel_emits_even_on_delete_error_witness :
    (ArbRetryableTx.Cancel wMDel 1).2.events = wMDel.events ++ [.canceled 1] ∧
      (ArbRetryableTx.Cancel wMDel 1).1 =
        (match wMDel.retryables.deleteErr with
         | some msg => .error (.storeFailure msg)
         | none => .ok ()) :=
  cancel_emits_even_on_delete_error wMDel 1 wTicket
    (of_decide_eq_true rfl) (of_decide_eq_true rfl)

/-! ### C4 -/

/-- C4: For every ticketId that is absent from the store or expired at
the current time, each of Cancel, GetTimeout, GetBeneficiary, Keepalive
and Redeem returns the single uniform not-found error and performs no
store mutation and no event emission (the gas hypotheses keep the
metered burns, which precede the not-found check in GetBeneficiary,
Keepalive and Redeem, from failing with out-of-gas first). -/
theorem notfound_uniform (costs : EventCosts) (m : Machine) (id : TicketId)
    (habs : OpenRetryable m.retryables id m.now = none)
    (hg1 : 2 * SloadGas ≤ m.gasLeft)
    (hg2 : 6 * SloadGas + 2 * SstoreSetGas + costs.lifetimeExtendedGasCost id 0 ≤ m.gasLeft)
    (hg3 : 5 * SloadGas + SstoreSetGas + costs.redeemScheduledGasCost id id 0 0 m.caller
      ≤ m.gasLeft) :
    ArbRetryableTx.Cancel m id = (.error .notFound, m) ∧
    ArbRetryableTx.GetTimeout m id = (.error .notFound, m) ∧
    ((ArbRetryableTx.GetBeneficiary m id).1 = .error .notFound ∧
      (ArbRetryableTx.GetBeneficiary m id).2.retryables = m.retryables ∧
      (ArbRetryableTx.GetBeneficiary m id).2.events = m.events) ∧
    ((ArbRetryableTx.Keepalive costs m id).1 = .error .notFound ∧
      (ArbRetryableTx.Keepalive costs m id).2.retryables = m.retryables ∧
      (ArbRetryableTx.Keepalive costs m id).2.events = m.events) ∧
    ((ArbRetryableTx.Redeem costs m id).1 = .error .notFound ∧
      (ArbRetryableTx.Redeem costs m id).2.retryables = m.retryables ∧
      (ArbRetryableTx.Redeem costs m id).2.events = m.events) := by
  refine ⟨?_, ?_, ?_, ?_, ?_⟩
  · simp [ArbRetryableTx.Cancel, habs]
  · simp [ArbRetryableTx.GetTimeout, habs]
  · simp [ArbRetryableTx.GetBeneficiary, burn, hg1, habs]
  · simp [ArbRetryableTx.Keepalive, burn, hg2, RetryableSizeBytes, habs]
  · simp [ArbRetryableTx.Redeem, burn, hg3, RetryableSizeBytes, habs, WordsForBytes]

/-- Witness for C4: ticket id 2 is absent from an empty store. -/
theorem notfound_uniform_witness :
    ArbRetryableTx.Cancel wMAbs 2 = (.error .notFound, wMAbs) ∧
    ArbRetryableTx.GetTimeout wMAbs 2 = (.error .notFound, wMAbs) ∧
    ((ArbRetryableTx.GetBeneficiary wMAbs 2).1 = .error .notFound ∧
      (ArbRetryableTx.GetBeneficiary wMAbs 2).2.retryables = wMAbs.retryables ∧
      (ArbRetryableTx.GetBeneficiary wMAbs 2).2.events = wMAbs.events) ∧
    ((ArbRetryableTx.Keepalive wCosts wMAbs 2).1 = .error .notFound ∧
      (ArbRetryableTx.Keepalive wCosts wMAbs 2).2.retryables = wMAbs.retryables ∧
      (ArbRetryableTx.Keepalive wCosts wMAbs 2).2.events = wMAbs.events) ∧
    ((ArbRetryableTx.Redeem wCosts wMAbs 2).1 = .error .notFound ∧
      (ArbRetryableTx.Redeem wCosts wMAbs 2).2.retryables = wMAbs.retryables ∧
      (ArbRetryableTx.Redeem wCosts wMAbs 2).2.events = wMAbs.events) :=
  notfound_uniform wCosts wMAbs 2 (of_decide_eq_true rfl)
    (of_decide_eq_true rfl) (of_decide_eq_true rfl) (of_decide_eq_true rfl)

/-! ### C8 -/

/-- C8: SetFeeCollector(aggregator, newCollector) succeeds only when the
caller equals the aggregator or the aggregator's current fee collector;
for every other caller it returns an authorization error and leaves the
aggregator's fee collector unchanged (the registry state is returned
untouched), and after a successful call GetFeeCollector(aggregator)
returns the new collector. -/
theorem setFeeCollector_authorization (caller : Addr) (st : L1PricingState)
    (aggregator newFeeCollector : Addr) :
    (caller ≠ aggregator → caller ≠ st.AggregatorFeeCollector aggregator →
      ArbAggregator.SetFeeCollector caller st aggregator newFeeCollector =
        (.error (.unauthorized "non-authorized c.caller in ArbAggregator.SetFeeCollector"), st)) ∧
    ((caller = aggregator ∨ caller = st.AggregatorFeeCollector aggregator) →
      (ArbAggregator.SetFeeCollector caller st aggregator newFeeCollector).1 = .ok () ∧
      ArbAggregator.GetFeeCollector
        (ArbAggregator.SetFeeCollector caller st aggregator newFeeCollector).2 aggregator
        = newFeeCollector) := by
  constructor
  · intro h1 h2
    simp [ArbAggregator.SetFeeCollector, h1, h2]
  · intro h
    unfold L1PricingState.AggregatorFeeCollector at h
    have hn : ¬(¬caller = aggregator ∧ ¬caller = st.aggregatorFeeCollector aggregator) := by
      tauto
    simp [ArbAggregator.SetFeeCollector, hn, ArbAggregator.GetFeeCollector,
      L1PricingState.SetAggregatorFeeCollector, L1PricingState.AggregatorFeeCollector]

/-- Witness for C8: caller 7 (neither aggregator 2 nor collector 3) is
rejected and the state is unchanged; caller 3 (the current collector)
succeeds and the new collector 9 is then read back. -/
theorem setFeeCollector_authorization_witness :
    (ArbAggregator.SetFeeCollector 7 wL1 2 9 =
      (.error (.unauthorized "non-authorized c.caller in ArbAggregator.SetFeeCollector"), wL1)) ∧
    ((ArbAggregator.SetFeeCollector 3 wL1 2 9).1 = .ok () ∧
      ArbAggregator.GetFeeCollector (ArbAggregator.SetFeeCollector 3 wL1 2 9).2 2 = 9) :=
  ⟨(setFeeCollector_authorization 7 wL1 2 9).1 (of_decide_eq_true rfl) (of_decide_eq_true rfl),
   (setFeeCollector_authorization 3 wL1 2 9).2 (Or.inr (of_decide_eq_true rfl))⟩
